import Mathlib

/-!
# Verification of the kodegen-tools-config configuration store

Shallow embedding of the configuration service in
`src/src/manager.rs`, `src/src/config_model.rs`, `src/src/env_loader.rs`
and `src/src/persistence.rs` of the `cyrup-ai/kodegen-tools-config`
repository, together with proofs settling the specification claims.

Modelling conventions:
* Rust `usize`/`u64` fields are modelled as `Nat`, `i64` as `Int`; the
  conversions `usize::try_from(i64)`, `u64::try_from(i64)` and
  `i64::try_from(usize/u64)` are modelled with their exact 64-bit
  success/failure conditions.
* The `f64` field `fuzzy_search_threshold` is modelled exactly: an `f64`
  value is represented by the rational number it denotes, and every
  floating-point operation the source performs on it (int-to-float cast,
  division by `100.0`, multiplication by `100.0`, truncating `as i64`
  cast) is modelled by IEEE-754 binary64 round-to-nearest-even on `ℚ`
  (`roundF64` below).  All values arising here lie well inside the
  normal range, so overflow/subnormal handling is irrelevant.
* I/O (directory creation, file read, serde parsing, file write) is
  abstracted into explicit outcome parameters; serde parsing of the
  config file is an oracle outcome since `serde_json` is an external
  crate.
* `cfg!(windows)` is resolved to the Unix branch (separator `':'`,
  default shell `"/bin/sh"`).
* Rust `str::split(char)` and `str::trim` are modelled structurally
  over the string's character list (`splitChar`, `trimChars` below);
  the whitespace class is ASCII whitespace (Rust trims the full Unicode
  `White_Space` class, which agrees on all claim-relevant inputs).
-/

unseal Rat.mul Rat.add Rat.sub Rat.inv

deriving instance DecidableEq for Except

namespace KodegenConfig

/-- `ConfigValue` from `kodegen_mcp_schema::config` (external crate):
tagged union used by `get_value`/`set_value`.  Its `Number` variant
carries an `i64`. -/
inductive ConfigValue where
  | String (s : String)
  | Number (n : Int)
  | Boolean (b : Bool)
  | Array (a : List String)
deriving DecidableEq, Repr

/-- `MemoryInfo` from `src/src/system_info.rs`. -/
structure MemoryInfo where
  total_mb : String
  available_mb : String
  used_mb : String
deriving DecidableEq, Repr

/-- `SystemInfo` from `src/src/system_info.rs`.  Populated by the
external diagnostics collaborator `get_system_info`; the store never
computes it, so it is passed in as a parameter where the source calls
`get_system_info()`. -/
structure SystemInfo where
  platform : String
  arch : String
  os_version : String
  kernel_version : String
  hostname : String
  rust_version : String
  cpu_count : Nat
  memory : MemoryInfo
deriving DecidableEq, Repr

/-- `ClientInfo` (re-export of `rmcp::model::Implementation` in
`src/src/system_info.rs`): the fields the store compares and stores. -/
structure ClientInfo where
  name : String
  version : String
deriving DecidableEq, Repr

/-- `ClientRecord` from `src/src/system_info.rs`; `chrono::DateTime<Utc>`
timestamps are modelled as `Nat`. -/
structure ClientRecord where
  client_info : ClientInfo
  connected_at : Nat
  last_seen : Nat
deriving DecidableEq, Repr

section Float64

/-!
## Exact model of the `f64` operations used by the store

A finite `f64` is identified with the rational it denotes.  `roundF64`
is IEEE-754 binary64 round-to-nearest, ties-to-even, for arguments in
the normal range (all arguments arising in this development lie in
`[1/100, 700000]` up to sign, far inside it).
-/

/-- Fuel-driven structural floor-log₂ (kernel-reducible, unlike
`Nat.log2`, which is defined by well-founded recursion). -/
def natLog2F : Nat → Nat → Nat
  | 0, _ => 0
  | fuel + 1, n => if n < 2 then 0 else natLog2F fuel (n / 2) + 1

/-- `⌊log₂ n⌋` (and `0` for `n < 2`). -/
def natLog2 (n : Nat) : Nat := natLog2F n n

/-- Smallest `k` with `m ≤ 2 ^ k` (for `m ≥ 1`). -/
def natClog2 (m : Nat) : Nat :=
  if m ≤ 1 then 0 else natLog2 (m - 1) + 1

/-- Binary exponent of a positive rational: the unique `e` with
`2 ^ e ≤ a < 2 ^ (e + 1)`. -/
def f64Exp (a : ℚ) : Int :=
  if 1 ≤ a then (natLog2 a.floor.toNat : Int)
  else - (natClog2 (1 / a).ceil.toNat : Int)

/-- `2 ^ k` as a rational, for `k : ℤ`, kernel-reducible. -/
def twoPow (k : Int) : ℚ :=
  if 0 ≤ k then ((2 ^ k.toNat : Nat) : ℚ) else 1 / ((2 ^ (-k).toNat : Nat) : ℚ)

/-- Round a rational to the nearest integer, ties to even. -/
def rnEven (m : ℚ) : Int :=
  let fl := m.floor
  let fr := m - (fl : ℚ)
  if fr < 1 / 2 then fl
  else if 1 / 2 < fr then fl + 1
  else if fl % 2 = 0 then fl else fl + 1

/-- IEEE-754 binary64 round-to-nearest-even on rationals (normal range:
the significand is rounded to 53 bits at the argument's binade). -/
def roundF64 (q : ℚ) : ℚ :=
  if q = 0 then 0
  else
    let a := if q < 0 then -q else q
    let e := f64Exp a
    let m := rnEven (a * twoPow (52 - e))
    (if q < 0 then -(m : ℚ) else (m : ℚ)) * twoPow (e - 52)

/-- The `f64` denoted by the Rust literal `0.7`
(`default_fuzzy_search_threshold`). -/
def defaultFuzzyThreshold : ℚ := roundF64 (7 / 10)

/-- Rust `i64 as f64` cast (round to nearest). -/
def f64OfI64 (n : Int) : ℚ := roundF64 (n : ℚ)

/-- Rust `f64 / f64` for the specific divisor `100.0`: exact quotient,
correctly rounded. -/
def f64Div100 (x : ℚ) : ℚ := roundF64 (x / 100)

/-- Rust `f64 * f64` for the specific factor `100.0`: exact product,
correctly rounded. -/
def f64Mul100 (x : ℚ) : ℚ := roundF64 (x * 100)

/-- `i64::MAX`. -/
def i64Max : Int := 2 ^ 63 - 1

/-- `i64::MIN`. -/
def i64Min : Int := - (2 ^ 63)

/-- Rust `f64 as i64` cast: truncation toward zero, saturating at the
`i64` bounds. -/
def i64OfF64Trunc (q : ℚ) : Int :=
  let t := if 0 ≤ q then q.floor else q.ceil
  if t < i64Min then i64Min else if i64Max < t then i64Max else t

end Float64

/-- `ServerConfig` from `src/src/config_model.rs` (the revision the
crate's tool handlers compile against: it carries
`path_validation_timeout_ms` and `save_error_count`, which
`src/src/get_config.rs` reads). -/
structure ServerConfig where
  blocked_commands : List String
  default_shell : String
  allowed_directories : List String
  denied_directories : List String
  file_read_line_limit : Nat
  file_write_line_limit : Nat
  fuzzy_search_threshold : ℚ
  http_connection_timeout_secs : Nat
  path_validation_timeout_ms : Nat
  current_client : Option ClientInfo
  client_history : List ClientRecord
  system_info : SystemInfo
  save_error_count : Nat
deriving DecidableEq, Repr

/-- `ServerConfig::default()` from `src/src/config_model.rs` (Unix
branch of `cfg!(windows)`); `get_system_info()` is the external
diagnostics collaborator, passed in as `si`. -/
def defaultConfig (si : SystemInfo) : ServerConfig where
  blocked_commands :=
    ["rm", "rmdir", "del", "format", "dd", "shred", "sudo", "su", "passwd",
     "useradd", "userdel", "chmod", "chown", "shutdown", "reboot", "halt",
     "poweroff"]
  default_shell := "/bin/sh"
  allowed_directories := []
  denied_directories := []
  file_read_line_limit := 1000
  file_write_line_limit := 50
  fuzzy_search_threshold := defaultFuzzyThreshold
  http_connection_timeout_secs := 5
  path_validation_timeout_ms := 30000
  current_client := none
  client_history := []
  system_info := si
  save_error_count := 0

/-- `ConfigValue::into_array` from `kodegen_mcp_schema` (external
crate).  The type-mismatch message text lives in that crate and is
never inspected by a claim; a fixed placeholder is used. -/
def into_array : ConfigValue → Except String (List String)
  | .Array a => .ok a
  | _ => .error "expected array value"

/-- `ConfigValue::into_string` from `kodegen_mcp_schema` (external
crate); placeholder mismatch message, see `into_array`. -/
def into_string : ConfigValue → Except String String
  | .String s => .ok s
  | _ => .error "expected string value"

/-- `ConfigValue::into_number` from `kodegen_mcp_schema` (external
crate); placeholder mismatch message, see `into_array`. -/
def into_number : ConfigValue → Except String Int
  | .Number n => .ok n
  | _ => .error "expected number value"

/-- `usize::try_from(i64)` on a 64-bit target: succeeds exactly on
nonnegative inputs (every nonnegative `i64` fits in a 64-bit `usize`). -/
def usizeTryFromI64 (n : Int) : Option Nat :=
  if 0 ≤ n then some n.toNat else none

/-- `u64::try_from(i64)`: succeeds exactly on nonnegative inputs. -/
def u64TryFromI64 (n : Int) : Option Nat :=
  if 0 ≤ n then some n.toNat else none

/-- `i64::try_from(usize/u64)`: succeeds exactly on inputs `≤ i64::MAX`. -/
def i64TryFromNat (x : Nat) : Option Int :=
  if (x : Int) ≤ i64Max then some (x : Int) else none

/-- Modelled from the spec: the `path_validation_timeout_ms` arm of
`ConfigManager::set_value`.  The field is declared (with its default
and serde attribute) in `src/src/config_model.rs:53-56`, but the
`ConfigManager` revision that compiles against `config_model.rs` is not
under `src/` (the `manager.rs` under `src/` carries its own older
`ServerConfig` without this field, and lacks the
`get_save_error_count` method that `src/src/get_config.rs` calls).
Per the spec's validation table: number, `0 < n ≤ 600000`;
`≤ 0` → "must be positive", `> 600000` → "cannot exceed 600000ms". -/
def setPathValidationTimeout (config : ServerConfig) (value : ConfigValue) :
    Except String ServerConfig := do
  let num ← into_number value
  if num ≤ 0 then
    throw "path_validation_timeout_ms must be positive"
  else if 600000 < num then
    throw "path_validation_timeout_ms cannot exceed 600000ms"
  else
    pure { config with path_validation_timeout_ms := num.toNat }

/-- Modelled from the spec: the `path_validation_timeout_ms` arm of
`ConfigManager::get_value` (see `setPathValidationTimeout` for what is
missing from `src/`).  Projection of the `u64` field as a `Number`,
like the neighbouring `http_connection_timeout_secs` arm. -/
def getPathValidationTimeout (config : ServerConfig) : Option ConfigValue :=
  some (.Number ((i64TryFromNat config.path_validation_timeout_ms).getD i64Max))

/-- `ConfigManager::set_value` from `src/src/manager.rs:291-366`
(the in-memory mutation inside the write-lock block; the trailing
fire-and-forget save signal is modelled by `managerSetValue`), plus the
spec-modelled `path_validation_timeout_ms` arm. -/
def setValue (config : ServerConfig) (key : String) (value : ConfigValue) :
    Except String ServerConfig :=
  if key = "blocked_commands" then do
    let a ← into_array value
    pure { config with blocked_commands := a }
  else if key = "default_shell" then do
    let s ← into_string value
    pure { config with default_shell := s }
  else if key = "allowed_directories" then do
    let a ← into_array value
    pure { config with allowed_directories := a }
  else if key = "denied_directories" then do
    let a ← into_array value
    pure { config with denied_directories := a }
  else if key = "file_read_line_limit" then do
    let num ← into_number value
    if num ≤ 0 then
      throw "file_read_line_limit must be positive"
    else
      match usizeTryFromI64 num with
      | none => throw "file_read_line_limit value out of range"
      | some v => pure { config with file_read_line_limit := v }
  else if key = "file_write_line_limit" then do
    let num ← into_number value
    if num ≤ 0 then
      throw "file_write_line_limit must be positive"
    else
      match usizeTryFromI64 num with
      | none => throw "file_write_line_limit value out of range"
      | some v => pure { config with file_write_line_limit := v }
  else if key = "fuzzy_search_threshold" then do
    let num ← into_number value
    if ¬ (0 ≤ num ∧ num ≤ 100) then
      throw "fuzzy_search_threshold must be between 0 and 100"
    else
      pure { config with fuzzy_search_threshold := f64Div100 (f64OfI64 num) }
  else if key = "http_connection_timeout_secs" then do
    let num ← into_number value
    if num ≤ 0 then
      throw "http_connection_timeout_secs must be positive"
    else
      match u64TryFromI64 num with
      | none => throw "http_connection_timeout_secs value out of range"
      | some v => pure { config with http_connection_timeout_secs := v }
  else if key = "path_validation_timeout_ms" then
    setPathValidationTimeout config value
  else
    throw ("Unknown config key: " ++ key)

/-- `ConfigManager::get_value` from `src/src/manager.rs:264-285`, plus
the spec-modelled `path_validation_timeout_ms` arm. -/
def getValue (config : ServerConfig) (key : String) : Option ConfigValue :=
  if key = "blocked_commands" then
    some (.Array config.blocked_commands)
  else if key = "default_shell" then
    some (.String config.default_shell)
  else if key = "allowed_directories" then
    some (.Array config.allowed_directories)
  else if key = "denied_directories" then
    some (.Array config.denied_directories)
  else if key = "file_read_line_limit" then
    some (.Number ((i64TryFromNat config.file_read_line_limit).getD i64Max))
  else if key = "file_write_line_limit" then
    some (.Number ((i64TryFromNat config.file_write_line_limit).getD i64Max))
  else if key = "fuzzy_search_threshold" then
    some (.Number (i64OfF64Trunc (f64Mul100 config.fuzzy_search_threshold)))
  else if key = "http_connection_timeout_secs" then
    some (.Number ((i64TryFromNat config.http_connection_timeout_secs).getD i64Max))
  else if key = "path_validation_timeout_ms" then
    getPathValidationTimeout config
  else
    none

/-- The recognized key set: the keys with a non-default arm in
`set_value`/`get_value`. -/
def recognizedKeys : List String :=
  ["blocked_commands", "default_shell", "allowed_directories",
   "denied_directories", "file_read_line_limit", "file_write_line_limit",
   "fuzzy_search_threshold", "http_connection_timeout_secs",
   "path_validation_timeout_ms"]

/-- Observable state of a `ConfigManager`: the lock-protected snapshot
plus the number of `()` signals sent on the unbounded `save_sender`
channel. -/
structure ManagerState where
  config : ServerConfig
  save_signals : Nat
deriving DecidableEq, Repr

/-- `ConfigManager::set_value` at the manager level: on success the
snapshot is replaced and one save signal is enqueued
(`src/src/manager.rs:363-365`); on any error the function returned
early inside the lock block, so the snapshot is untouched and no
signal is sent. -/
def managerSetValue (st : ManagerState) (key : String) (value : ConfigValue) :
    ManagerState × Except String Unit :=
  match setValue st.config key value with
  | .ok c => ({ config := c, save_signals := st.save_signals + 1 }, .ok ())
  | .error e => (st, .error e)

/-- The record-matching test of `ConfigManager::set_client_info`
(`src/src/manager.rs:464-467`): same client name and version. -/
def recordMatches (r : ClientRecord) (client : ClientInfo) : Bool :=
  r.client_info.name == client.name && r.client_info.version == client.version

/-- `iter_mut().find(...)` followed by `record.last_seen = now`: update
the first matching record in place. -/
def updateFirstMatch : List ClientRecord → ClientInfo → Nat → List ClientRecord
  | [], _, _ => []
  | r :: rs, client, now =>
    if recordMatches r client then { r with last_seen := now } :: rs
    else r :: updateFirstMatch rs client now

/-- `ConfigManager::set_client_info` from `src/src/manager.rs:458-488`
(the mutation inside the lock block); `chrono::Utc::now()` is the
parameter `now`. -/
def setClientInfo (config : ServerConfig) (client : ClientInfo) (now : Nat) :
    ServerConfig :=
  let history :=
    if config.client_history.any (recordMatches · client) then
      updateFirstMatch config.client_history client now
    else
      config.client_history ++
        [{ client_info := client, connected_at := now, last_seen := now }]
  { config with client_history := history, current_client := some client }

/-- `ConfigManager::set_client_info` at the manager level: always
mutates, always enqueues one save signal, always returns `Ok(())`. -/
def managerSetClientInfo (st : ManagerState) (client : ClientInfo) (now : Nat) :
    ManagerState × Except String Unit :=
  ({ config := setClientInfo st.config client now,
     save_signals := st.save_signals + 1 }, .ok ())

/-- ASCII whitespace (the claim-relevant fragment of Rust
`char::is_whitespace`, which is Unicode `White_Space`). -/
def isWhitespaceChar (c : Char) : Bool :=
  c == ' ' || c == '\t' || c == '\n' || c == '\r'

/-- Rust `str::split(sep)` on the character list: splits at every
separator occurrence, keeping empty segments (`"" → [""]`,
`":" → ["", ""]`, like Rust's `split`). -/
def splitChar (sep : Char) : List Char → List (List Char)
  | [] => [[]]
  | c :: cs =>
    let r := splitChar sep cs
    if c == sep then [] :: r
    else
      match r with
      | [] => [[c]]
      | h :: t => (c :: h) :: t

/-- Rust `str::trim` on the character list: drop whitespace from both
ends. -/
def trimChars (cs : List Char) : List Char :=
  ((cs.dropWhile isWhitespaceChar).reverse.dropWhile isWhitespaceChar).reverse

/-- Rust `str::split(sep)` producing strings. -/
def rustSplit (s : String) (sep : Char) : List String :=
  (splitChar sep s.data).map String.mk

/-- Rust `str::trim().to_string()`. -/
def rustTrim (s : String) : String :=
  String.mk (trimChars s.data)

/-- `load_allowed_dirs_from_env` from `src/src/env_loader.rs:7-19`
(Unix separator `':'`); the `KODEGEN_ALLOWED_DIRS` environment variable
is the parameter (`none` = unset, matching `.ok()` on `env::var`). -/
def loadAllowedDirsFromEnv (envVar : Option String) : List String :=
  match envVar with
  | none => []
  | some dirs => ((rustSplit dirs ':').map rustTrim).filter (fun s => !s.isEmpty)

/-- `load_denied_dirs_from_env` from `src/src/env_loader.rs:23-35`. -/
def loadDeniedDirsFromEnv (envVar : Option String) : List String :=
  match envVar with
  | none => []
  | some dirs => ((rustSplit dirs ':').map rustTrim).filter (fun s => !s.isEmpty)

/-- The environment-override block of `ConfigManager::init`
(`src/src/manager.rs:208-227`): a non-empty environment list replaces
the corresponding directory list wholesale. -/
def applyEnvOverrides (loaded : ServerConfig)
    (envAllowed envDenied : Option String) : ServerConfig :=
  let env_allowed := loadAllowedDirsFromEnv envAllowed
  let env_denied := loadDeniedDirsFromEnv envDenied
  let c1 :=
    if !env_allowed.isEmpty then
      { loaded with allowed_directories := env_allowed }
    else loaded
  if !env_denied.isEmpty then
    { c1 with denied_directories := env_denied }
  else c1

/-- Failure cases of `ConfigManager::init`. -/
inductive InitError where
  | mkdirFailed
  | parseFailed
  | saveFailed
deriving DecidableEq, Repr

/-- `ConfigManager::init` from `src/src/manager.rs:197-231` with I/O
abstracted: `prev` is the snapshot before `init` (defaults, from
`new()`); `mkdirOk` is the outcome of `create_dir_all`; `readResult`
is the outcome of `read_to_string` (`none` = read error) composed with
`serde_json::from_str` (`some (.error ())` = file read but unparseable,
`some (.ok c)` = parsed; serde is an external crate, so parsing is an
oracle outcome); `saveOk` is the outcome of the explicit
`save_to_disk`.  Returns the snapshot after the call and the returned
`Result`.  Note `src/src/manager.rs:204` applies `?` to the parse
result, and the commit at line 228 happens before the save. -/
def init (prev : ServerConfig) (mkdirOk : Bool)
    (readResult : Option (Except Unit ServerConfig))
    (envAllowed envDenied : Option String) (saveOk : Bool)
    (si : SystemInfo) : ServerConfig × Except InitError Unit :=
  if !mkdirOk then (prev, .error .mkdirFailed)
  else
    match readResult with
    | some (.error _) => (prev, .error .parseFailed)
    | some (.ok c) =>
      let cfg := applyEnvOverrides c envAllowed envDenied
      (cfg, if saveOk then .ok () else .error .saveFailed)
    | none =>
      let cfg := applyEnvOverrides (defaultConfig si) envAllowed envDenied
      (cfg, if saveOk then .ok () else .error .saveFailed)

section Saver

/-!
## The background saver (`src/src/persistence.rs:63-122`)

The `tokio::select!` loop is modelled as a step function over discrete
events carrying explicit timestamps: `recv t` is receipt of a save
signal at time `t` (`last_save_request = Instant::now()`), `tick t` is
expiry of the 100 ms polling sleep at time `t`.  Each event also
carries the shared `ServerConfig` at that instant (the saver reads it
under the lock when it serializes).  A produced `ServerConfig` value
stands for one disk write of the serialized snapshot
(`serde_json::to_string_pretty` on this data cannot fail, so the
`Err => continue` branch is not reachable and serialization is
modelled as total).

There is no channel-closed event: in `tokio::select!` the `else`
branch runs only when *every* other branch is disabled within one
`select!` evaluation, and the `sleep` branch is never disabled (its
pattern `()` always matches), so the `else` arm at
`src/src/persistence.rs:108-118` — the final flush and `break` — is
dead code.  Once the channel closes, the `Some(()) = recv()` pattern
fails on `None` and merely disables that branch for the current
`select!` call; every iteration then completes via the sleep arm, so
the post-close behavior of the task is a pure tick stream: a pending
save is written only by the tick arm once the debounce window has
elapsed, and the loop never exits. -/

/-- The saver task's local state: `has_pending_save` and
`last_save_request`. -/
structure SaverState where
  hasPending : Bool
  lastReq : Nat
deriving DecidableEq, Repr

/-- One `select!` arm firing.  Only the signal-receipt and sleep arms
can ever complete (see the section comment: the channel-closed `else`
arm is unreachable). -/
inductive SaverEvent where
  | recv (now : Nat)
  | tick (now : Nat)
deriving DecidableEq, Repr

/-- `DEBOUNCE_MS` from `src/src/persistence.rs:70`. -/
def debounceMs : Nat := 300

/-- One iteration of the saver loop: returns the new state and the
write performed (if any). -/
def saverStep (st : SaverState) (cfg : ServerConfig) :
    SaverEvent → SaverState × Option ServerConfig
  | .recv now => ({ hasPending := true, lastReq := now }, none)
  | .tick now =>
    if st.hasPending ∧ debounceMs ≤ now - st.lastReq then
      ({ st with hasPending := false }, some cfg)
    else (st, none)

/-- Run the saver over a list of events (each paired with the shared
config at that instant), accumulating the final state and the disk
writes in order. -/
def saverExec (st : SaverState) :
    List (ServerConfig × SaverEvent) → SaverState × List ServerConfig
  | [] => (st, [])
  | (cfg, e) :: rest =>
    let p := saverStep st cfg e
    let q := saverExec p.1 rest
    (q.1, p.2.toList ++ q.2)

end Saver

/-!
## Vocabulary for the claim statements
-/

/-- A fixed concrete diagnostics snapshot, used to instantiate the
`get_system_info()` parameter in closed statements. -/
def si0 : SystemInfo where
  platform := "linux"
  arch := "x86_64"
  os_version := "Ubuntu 22.04"
  kernel_version := "6.1.0"
  hostname := "host"
  rust_version := "0.1.0"
  cpu_count := 4
  memory := { total_mb := "16000 MB", available_mb := "8000 MB", used_mb := "8000 MB" }

/-- `pat` is an initial segment of `l`. -/
def startsWithChars : List Char → List Char → Bool
  | [], _ => true
  | _ :: _, [] => false
  | p :: ps, c :: cs => p == c && startsWithChars ps cs

/-- `pat` occurs contiguously somewhere in `l`. -/
def hasSubChars : List Char → List Char → Bool
  | l, pat =>
    match l with
    | [] => pat.isEmpty
    | _ :: cs => startsWithChars pat l || hasSubChars cs pat

/-- `pat` occurs as a substring of `s`. -/
def strContains (s pat : String) : Prop :=
  hasSubChars s.data pat.data = true

instance (s pat : String) : Decidable (strContains s pat) := by
  unfold strContains
  infer_instance

/-- A `(key, value)` pair that is valid per the spec §4.2 validation
table: recognized key, the key's `ConfigValue` variant, number within
the key's bound (and representable as `i64`, the type `Number`
carries). -/
def validPair : String → ConfigValue → Prop
  | k, .Array _ =>
    k = "blocked_commands" ∨ k = "allowed_directories" ∨ k = "denied_directories"
  | k, .String _ => k = "default_shell"
  | k, .Number n =>
    ((k = "file_read_line_limit" ∨ k = "file_write_line_limit" ∨
        k = "http_connection_timeout_secs") ∧ 0 < n ∧ n ≤ i64Max)
    ∨ (k = "fuzzy_search_threshold" ∧ 0 ≤ n ∧ n ≤ 100)
    ∨ (k = "path_validation_timeout_ms" ∧ 0 < n ∧ n ≤ 600000)
  | _, .Boolean _ => False

instance (k : String) (v : ConfigValue) : Decidable (validPair k v) := by
  unfold validPair
  cases v <;> infer_instance

/-- The `client_history` invariant: at most one record per
`(name, version)` pair. -/
def distinctClientPairs (l : List ClientRecord) : Prop :=
  l.Pairwise (fun r s =>
    ¬ (r.client_info.name = s.client_info.name ∧
       r.client_info.version = s.client_info.version))

instance (l : List ClientRecord) : Decidable (distinctClientPairs l) := by
  unfold distinctClientPairs
  infer_instance

/-- A burst of saver events relative to the time of the last received
signal: signals may arrive at any times (each resets the reference
time), and every polling tick fires strictly inside the debounce
window of the most recent signal. -/
def BurstOK : Nat → List (ServerConfig × SaverEvent) → Bool
  | _, [] => true
  | _, (_, .recv t) :: rest => BurstOK t rest
  | last, (_, .tick u) :: rest => decide (u - last < debounceMs) && BurstOK last rest

/-- The time of the last signal in the trace (defaulting to `last`). -/
def lastRecvTime (last : Nat) : List (ServerConfig × SaverEvent) → Nat
  | [] => last
  | (_, .recv t) :: rest => lastRecvTime t rest
  | _ :: rest => lastRecvTime last rest

/-- The shared config at the last signal in the trace (defaulting to
`c`): after the last mutation no further `set_value` runs, so this is
the config the saver reads when it finally fires. -/
def lastRecvCfg (c : ServerConfig) : List (ServerConfig × SaverEvent) → ServerConfig
  | [] => c
  | (c', .recv _) :: rest => lastRecvCfg c' rest
  | _ :: rest => lastRecvCfg c rest

/-!
## Shared lemmas
-/

theorem startsWithChars_self (l : List Char) : startsWithChars l l = true := by
  induction l with
  | nil => rfl
  | cons c cs ih => simp [startsWithChars, ih]

theorem strContains_self (s : String) : strContains s s := by
  unfold strContains hasSubChars
  cases h : s.data with
  | nil => rfl
  | cons c cs => simp [← h, startsWithChars_self]

set_option maxRecDepth 8000 in
/-- Exhaustive table of the `f64` fuzzy-threshold round trip for every
legal percentage: the stored `f64` is within `10⁻⁹` of `n/100`, and the
`get_value` projection `(threshold * 100.0) as i64` recovers `n` except
at `n ∈ {29, 57, 58}`, where binary64 rounding makes the product land
just below `n` and truncation drops it to `n - 1`. -/
theorem fuzzyTable : ∀ n : Nat, n ≤ 100 →
    (-(1 / 1000000000) ≤ f64Div100 (f64OfI64 n) - n / 100
      ∧ f64Div100 (f64OfI64 n) - (n : ℚ) / 100 ≤ 1 / 1000000000)
    ∧ i64OfF64Trunc (f64Mul100 (f64Div100 (f64OfI64 n)))
        = (if n = 29 ∨ n = 57 ∨ n = 58 then (n : Int) - 1 else (n : Int)) := by
  decide

/-!
## Claims
-/

/-- C2: for every key outside the recognized set and every value,
`set_value` returns an error whose message contains
`"Unknown config key: {key}"`, the configuration snapshot is unchanged,
and no save signal is enqueued. -/
theorem setValue_unknown_key_rejected :
    ∀ (st : ManagerState) (key : String) (value : ConfigValue),
      key ∉ recognizedKeys →
      ∃ msg, managerSetValue st key value = (st, .error msg)
        ∧ strContains msg ("Unknown config key: " ++ key) := by
  intro st key value h
  simp only [recognizedKeys, List.mem_cons, List.mem_singleton, not_or,
    List.not_mem_nil, or_false] at h
  obtain ⟨h1, h2, h3, h4, h5, h6, h7, h8, h9⟩ := h
  refine ⟨"Unknown config key: " ++ key, ?_, strContains_self _⟩
  simp [managerSetValue, setValue, h1, h2, h3, h4, h5, h6, h7, h8, h9,
    throw, throwThe, MonadExceptOf.throw]

/-- C2 witness. -/
theorem setValue_unknown_key_rejected_witness :
    ∃ msg, managerSetValue ⟨defaultConfig si0, 3⟩ "nonexistent_key" (ConfigValue.Boolean true)
        = (⟨defaultConfig si0, 3⟩, .error msg)
      ∧ strContains msg ("Unknown config key: " ++ "nonexistent_key") :=
  setValue_unknown_key_rejected ⟨defaultConfig si0, 3⟩ "nonexistent_key"
    (ConfigValue.Boolean true) (by decide)

/-- C4 (spec-modelled arm): `set_value("path_validation_timeout_ms", 600000)`
succeeds (inclusive upper boundary) and stores `600000`;
`700000` fails with a message containing `"cannot exceed 600000ms"`;
every `n ≤ 0` fails with a message containing `"must be positive"`. -/
theorem path_validation_timeout_bounds :
    ∀ cfg : ServerConfig,
      setValue cfg "path_validation_timeout_ms" (ConfigValue.Number 600000)
          = .ok { cfg with path_validation_timeout_ms := 600000 }
      ∧ (∃ msg, setValue cfg "path_validation_timeout_ms" (ConfigValue.Number 700000)
            = .error msg ∧ strContains msg "cannot exceed 600000ms")
      ∧ (∀ n : Int, n ≤ 0 →
          ∃ msg, setValue cfg "path_validation_timeout_ms" (ConfigValue.Number n)
            = .error msg ∧ strContains msg "must be positive") := by
  intro cfg
  refine ⟨rfl, ⟨_, rfl, by decide⟩, ?_⟩
  intro n hn
  refine ⟨"path_validation_timeout_ms must be positive", ?_, by decide⟩
  simp [setValue, setPathValidationTimeout, into_number, hn,
    Except.bind, Bind.bind, throw, throwThe, MonadExceptOf.throw]

/-- C4 witness. -/
theorem path_validation_timeout_bounds_witness :
    setValue (defaultConfig si0) "path_validation_timeout_ms" (ConfigValue.Number 600000)
        = .ok { defaultConfig si0 with path_validation_timeout_ms := 600000 }
    ∧ (∃ msg, setValue (defaultConfig si0) "path_validation_timeout_ms" (ConfigValue.Number 700000)
          = .error msg ∧ strContains msg "cannot exceed 600000ms")
    ∧ (∃ msg, setValue (defaultConfig si0) "path_validation_timeout_ms" (ConfigValue.Number (-5))
          = .error msg ∧ strContains msg "must be positive") :=
  ⟨(path_validation_timeout_bounds (defaultConfig si0)).1,
   (path_validation_timeout_bounds (defaultConfig si0)).2.1,
   (path_validation_timeout_bounds (defaultConfig si0)).2.2 (-5) (by decide)⟩

/-- C5: for every integer `n ≤ 0`, setting `file_read_line_limit`
(likewise `file_write_line_limit` and `http_connection_timeout_secs`)
to `n` fails with a message containing `"must be positive"`, and the
stored configuration (and signal count) is unchanged by the failing
call. -/
theorem numeric_limits_reject_nonpositive :
    ∀ (st : ManagerState) (n : Int), n ≤ 0 →
      (managerSetValue st "file_read_line_limit" (ConfigValue.Number n)
          = (st, .error "file_read_line_limit must be positive")
        ∧ strContains "file_read_line_limit must be positive" "must be positive")
      ∧ (managerSetValue st "file_write_line_limit" (ConfigValue.Number n)
          = (st, .error "file_write_line_limit must be positive")
        ∧ strContains "file_write_line_limit must be positive" "must be positive")
      ∧ (managerSetValue st "http_connection_timeout_secs" (ConfigValue.Number n)
          = (st, .error "http_connection_timeout_secs must be positive")
        ∧ strContains "http_connection_timeout_secs must be positive" "must be positive") := by
  intro st n hn
  refine ⟨⟨?_, by decide⟩, ⟨?_, by decide⟩, ⟨?_, by decide⟩⟩ <;>
    simp [managerSetValue, setValue, into_number, hn,
      Except.bind, Bind.bind, throw, throwThe, MonadExceptOf.throw]

/-- C5 witness. -/
theorem numeric_limits_reject_nonpositive_witness :
    (managerSetValue ⟨defaultConfig si0, 0⟩ "file_read_line_limit" (ConfigValue.Number (-100))
        = (⟨defaultConfig si0, 0⟩, .error "file_read_line_limit must be positive")
      ∧ strContains "file_read_line_limit must be positive" "must be positive")
    ∧ (managerSetValue ⟨defaultConfig si0, 0⟩ "file_write_line_limit" (ConfigValue.Number (-100))
        = (⟨defaultConfig si0, 0⟩, .error "file_write_line_limit must be positive")
      ∧ strContains "file_write_line_limit must be positive" "must be positive")
    ∧ (managerSetValue ⟨defaultConfig si0, 0⟩ "http_connection_timeout_secs" (ConfigValue.Number (-100))
        = (⟨defaultConfig si0, 0⟩, .error "http_connection_timeout_secs must be positive")
      ∧ strContains "http_connection_timeout_secs must be positive" "must be positive") :=
  numeric_limits_reject_nonpositive ⟨defaultConfig si0, 0⟩ (-100) (by decide)

/-- C9: `get_value` on an unrecognized key returns `none` with no error
(silent miss), while `set_value` on the same key returns the strict
`"Unknown config key"` error; on every recognized key `get_value`
returns `some` projection. -/
theorem getValue_silent_miss_vs_setValue_strict :
    ∀ (cfg : ServerConfig) (st : ManagerState) (key : String) (value : ConfigValue),
      (key ∉ recognizedKeys →
        getValue cfg key = none
        ∧ (managerSetValue st key value).2
            = .error ("Unknown config key: " ++ key))
      ∧ (key ∈ recognizedKeys → (getValue cfg key).isSome = true) := by
  intro cfg st key value
  constructor
  · intro h
    simp only [recognizedKeys, List.mem_cons, List.mem_singleton, not_or,
      List.not_mem_nil, or_false] at h
    obtain ⟨h1, h2, h3, h4, h5, h6, h7, h8, h9⟩ := h
    constructor
    · simp [getValue, h1, h2, h3, h4, h5, h6, h7, h8, h9]
    · simp [managerSetValue, setValue, h1, h2, h3, h4, h5, h6, h7, h8, h9,
        throw, throwThe, MonadExceptOf.throw]
  · intro h
    simp only [recognizedKeys, List.mem_cons, List.mem_singleton,
      List.not_mem_nil, or_false] at h
    rcases h with rfl | rfl | rfl | rfl | rfl | rfl | rfl | rfl | rfl <;> rfl

/-- C9 witness. -/
theorem getValue_silent_miss_vs_setValue_strict_witness :
    (getValue (defaultConfig si0) "nonexistent_key" = none
      ∧ (managerSetValue ⟨defaultConfig si0, 0⟩ "nonexistent_key" (ConfigValue.Number 1)).2
          = .error ("Unknown config key: " ++ "nonexistent_key"))
    ∧ ((getValue (defaultConfig si0) "fuzzy_search_threshold").isSome = true) :=
  ⟨(getValue_silent_miss_vs_setValue_strict (defaultConfig si0) ⟨defaultConfig si0, 0⟩
      "nonexistent_key" (ConfigValue.Number 1)).1 (by decide),
   (getValue_silent_miss_vs_setValue_strict (defaultConfig si0) ⟨defaultConfig si0, 0⟩
      "fuzzy_search_threshold" (ConfigValue.Number 1)).2 (by decide)⟩

/-- C10 (implicit): `get_value` on the numeric keys
`file_read_line_limit`, `file_write_line_limit` and
`http_connection_timeout_secs` is total — it returns
`some (Number (min field i64::MAX))`, so a stored unsigned value above
`i64::MAX` saturates to `Number i64::MAX` instead of failing. -/
theorem getValue_numeric_projection_saturates :
    ∀ cfg : ServerConfig,
      (getValue cfg "file_read_line_limit"
          = some (.Number (min (cfg.file_read_line_limit : Int) i64Max))
        ∧ (i64Max < (cfg.file_read_line_limit : Int) →
            getValue cfg "file_read_line_limit" = some (.Number i64Max)))
      ∧ (getValue cfg "file_write_line_limit"
          = some (.Number (min (cfg.file_write_line_limit : Int) i64Max))
        ∧ (i64Max < (cfg.file_write_line_limit : Int) →
            getValue cfg "file_write_line_limit" = some (.Number i64Max)))
      ∧ (getValue cfg "http_connection_timeout_secs"
          = some (.Number (min (cfg.http_connection_timeout_secs : Int) i64Max))
        ∧ (i64Max < (cfg.http_connection_timeout_secs : Int) →
            getValue cfg "http_connection_timeout_secs" = some (.Number i64Max))) := by
  intro cfg
  refine ⟨⟨?_, ?_⟩, ⟨?_, ?_⟩, ⟨?_, ?_⟩⟩
  · by_cases h : (cfg.file_read_line_limit : Int) ≤ i64Max
    · simp [getValue, i64TryFromNat, h, min_eq_left h]
    · simp [getValue, i64TryFromNat, h, min_eq_right (le_of_not_le h)]
  · intro hlt
    simp [getValue, i64TryFromNat, not_le.mpr hlt]
  · by_cases h : (cfg.file_write_line_limit : Int) ≤ i64Max
    · simp [getValue, i64TryFromNat, h, min_eq_left h]
    · simp [getValue, i64TryFromNat, h, min_eq_right (le_of_not_le h)]
  · intro hlt
    simp [getValue, i64TryFromNat, not_le.mpr hlt]
  · by_cases h : (cfg.http_connection_timeout_secs : Int) ≤ i64Max
    · simp [getValue, i64TryFromNat, h, min_eq_left h]
    · simp [getValue, i64TryFromNat, h, min_eq_right (le_of_not_le h)]
  · intro hlt
    simp [getValue, i64TryFromNat, not_le.mpr hlt]

/-- C10 witness. -/
theorem getValue_numeric_projection_saturates_witness :
    getValue { defaultConfig si0 with file_read_line_limit := 2 ^ 63 } "file_read_line_limit"
        = some (.Number i64Max)
    ∧ getValue (defaultConfig si0) "file_read_line_limit"
        = some (.Number (min ((1000 : Nat) : Int) i64Max)) :=
  ⟨((getValue_numeric_projection_saturates
        { defaultConfig si0 with file_read_line_limit := 2 ^ 63 }).1.2 (by decide)),
   (getValue_numeric_projection_saturates (defaultConfig si0)).1.1⟩

/-- C1 counterexample: `(29, fuzzy_search_threshold)` is a valid pair
per the validation table, `set_value` succeeds, but the subsequent
`get_value` returns `Number 28`, not the set value `29`: binary64
rounding puts `0.29 * 100.0` just below `29` and the `as i64` cast
truncates. -/
theorem setValue_fuzzy_29_reads_back_28 :
    validPair "fuzzy_search_threshold" (ConfigValue.Number 29)
    ∧ (setValue (defaultConfig si0) "fuzzy_search_threshold"
          (ConfigValue.Number 29)).toOption.map
        (fun c => getValue c "fuzzy_search_threshold")
        = some (some (ConfigValue.Number 28))
    ∧ ¬ ((setValue (defaultConfig si0) "fuzzy_search_threshold"
          (ConfigValue.Number 29)).toOption.map
        (fun c => getValue c "fuzzy_search_threshold")
        = some (some (ConfigValue.Number 29))) := by
  refine ⟨by decide, by decide, by decide⟩

/-- C1 (amended): for every valid `(key, value)` pair of the validation
table, `set_value` succeeds, and the subsequent `get_value` returns the
set value for every key except `fuzzy_search_threshold`; for
`fuzzy_search_threshold` the stored field is within `10⁻⁹` of `n/100`
(in particular `85 ↦ 0.85`), and `get_value` returns `n` back except
for `n ∈ {29, 57, 58}`, which read back as `n - 1` due to binary64
rounding followed by the truncating `as i64` cast. -/
theorem setValue_getValue_roundtrip :
    (∀ (cfg : ServerConfig) (k : String) (v : ConfigValue),
        validPair k v → k ≠ "fuzzy_search_threshold" →
        (setValue cfg k v).map (fun c => getValue c k) = .ok (some v))
    ∧ (∀ (cfg : ServerConfig) (n : Nat), n ≤ 100 →
        ∃ c, setValue cfg "fuzzy_search_threshold" (ConfigValue.Number (n : Int)) = .ok c
          ∧ |c.fuzzy_search_threshold - (n : ℚ) / 100| ≤ 1 / 1000000000
          ∧ getValue c "fuzzy_search_threshold"
              = some (ConfigValue.Number
                  (if n = 29 ∨ n = 57 ∨ n = 58 then (n : Int) - 1 else (n : Int)))) := by
  constructor
  · intro cfg k v hv hk
    cases v with
    | Array a => rcases hv with rfl | rfl | rfl <;> rfl
    | String s => obtain rfl := hv; rfl
    | Boolean b => exact hv.elim
    | Number n =>
      rcases hv with ⟨hks, hpos, hmax⟩ | ⟨hkf, _, _⟩ | ⟨hkp, hpos, hle⟩
      · have h0 : (0 : Int) ≤ n := le_of_lt hpos
        have hn0 : ¬ n ≤ (0 : Int) := not_le.mpr hpos
        rcases hks with rfl | rfl | rfl <;>
          simp [setValue, getValue, into_number, usizeTryFromI64, u64TryFromI64,
            i64TryFromNat, hn0, h0, Int.toNat_of_nonneg h0, hmax,
            Except.bind, Except.map, Except.pure, Bind.bind, Pure.pure]
      · exact absurd hkf hk
      · obtain rfl := hkp
        have h0 : (0 : Int) ≤ n := le_of_lt hpos
        have hn0 : ¬ n ≤ (0 : Int) := not_le.mpr hpos
        have h6 : ¬ (600000 : Int) < n := not_lt.mpr hle
        have hmax : n ≤ i64Max := le_trans hle (by decide)
        simp [setValue, setPathValidationTimeout, getValue, getPathValidationTimeout,
          into_number, i64TryFromNat, hn0, h0, h6, Int.toNat_of_nonneg h0, hmax,
          Except.bind, Except.map, Except.pure, Bind.bind, Pure.pure]
  · intro cfg n hn
    have h0 : (0 : Int) ≤ (n : Int) := Int.natCast_nonneg n
    have h100 : ((n : Int) ≤ 100) := by exact_mod_cast hn
    refine ⟨{ cfg with fuzzy_search_threshold := f64Div100 (f64OfI64 (n : Int)) },
      ?_, ?_, ?_⟩
    · simp [setValue, into_number, h0, h100,
        Except.bind, Bind.bind, Except.pure, Pure.pure]
    · exact abs_le.mpr ⟨(fuzzyTable n hn).1.1, (fuzzyTable n hn).1.2⟩
    · exact congrArg (fun z => some (ConfigValue.Number z)) (fuzzyTable n hn).2

/-- C1 witness. -/
theorem setValue_getValue_roundtrip_witness :
    ((setValue (defaultConfig si0) "default_shell"
        (ConfigValue.String "/bin/bash")).map
        (fun c => getValue c "default_shell")
        = .ok (some (ConfigValue.String "/bin/bash")))
    ∧ (∃ c, setValue (defaultConfig si0) "fuzzy_search_threshold"
          (ConfigValue.Number 85) = .ok c
        ∧ |c.fuzzy_search_threshold - (85 : ℚ) / 100| ≤ 1 / 1000000000
        ∧ getValue c "fuzzy_search_threshold" = some (ConfigValue.Number 85)) :=
  ⟨setValue_getValue_roundtrip.1 (defaultConfig si0) "default_shell"
      (ConfigValue.String "/bin/bash") (by decide) (by decide),
   setValue_getValue_roundtrip.2 (defaultConfig si0) 85 (by decide)⟩

/-- C3 counterexample: in an otherwise identical environment
(directory creation and the explicit save both succeed, no overrides),
a malformed — present but unparseable — config file makes `init`
return an error and leave the snapshot untouched, while an absent file
yields `Ok` with the defaults: malformed is not treated like absent
(`src/src/manager.rs:204` applies `?` to the `serde_json::from_str`
result). -/
theorem init_malformed_file_errors :
    init (defaultConfig si0) true (some (.error ())) none none true si0
        = (defaultConfig si0, .error InitError.parseFailed)
    ∧ init (defaultConfig si0) true none none none true si0
        = (defaultConfig si0, .ok ()) := by
  refine ⟨by decide, by decide⟩

/-- C3 (amended): `init` falls back to the defaults only when the
config file is absent or unreadable; a file that is read but fails to
parse aborts `init` with an error.  `init` fails exactly when the
config directory cannot be created, the present file fails to parse,
or the one explicit save fails. -/
theorem init_failure_characterization :
    ∀ (prev : ServerConfig) (mkdirOk : Bool)
      (readResult : Option (Except Unit ServerConfig))
      (envA envD : Option String) (saveOk : Bool) (si : SystemInfo),
      (mkdirOk = true → saveOk = true → readResult = none →
        init prev mkdirOk readResult envA envD saveOk si
          = (applyEnvOverrides (defaultConfig si) envA envD, .ok ()))
      ∧ (mkdirOk = true → readResult = some (.error ()) →
        init prev mkdirOk readResult envA envD saveOk si
          = (prev, .error .parseFailed))
      ∧ ((∃ e, (init prev mkdirOk readResult envA envD saveOk si).2 = .error e)
          ↔ (mkdirOk = false ∨ readResult = some (.error ()) ∨ saveOk = false)) := by
  intro prev mkdirOk readResult envA envD saveOk si
  refine ⟨?_, ?_, ?_⟩
  · rintro rfl rfl rfl; rfl
  · rintro rfl rfl; rfl
  · cases mkdirOk with
    | false => simp [init]
    | true =>
      cases readResult with
      | none => cases saveOk <;> simp [init]
      | some r =>
        cases r with
        | error u => cases u; simp [init]
        | ok c => cases saveOk <;> simp [init]

/-- C3 witness. -/
theorem init_failure_characterization_witness :
    init (defaultConfig si0) true none none none true si0
        = (applyEnvOverrides (defaultConfig si0) none none, .ok ())
    ∧ init (defaultConfig si0) true (some (.error ())) none none true si0
        = (defaultConfig si0, .error .parseFailed) :=
  ⟨(init_failure_characterization (defaultConfig si0) true none none none true si0).1
      rfl rfl rfl,
   (init_failure_characterization (defaultConfig si0) true (some (.error ()))
      none none true si0).2.1 rfl rfl⟩

/-- C7: the env loader splits the variable on `':'`, trims each
segment, and drops empty segments; an unset variable yields `[]`;
during `init`, an empty list leaves the loaded directory list
untouched, and a non-empty list replaces it entirely (no merging). -/
theorem env_override_semantics :
    (loadAllowedDirsFromEnv none = [] ∧ loadDeniedDirsFromEnv none = [])
    ∧ (∀ s x, x ∈ loadAllowedDirsFromEnv (some s) ↔
        (x ∈ (rustSplit s ':').map rustTrim ∧ x ≠ ""))
    ∧ loadAllowedDirsFromEnv (some " /a : : /b ") = ["/a", "/b"]
    ∧ (∀ (loaded : ServerConfig) (envA envD : Option String),
        (loadAllowedDirsFromEnv envA = [] →
          (applyEnvOverrides loaded envA envD).allowed_directories
            = loaded.allowed_directories)
        ∧ (loadAllowedDirsFromEnv envA ≠ [] →
          (applyEnvOverrides loaded envA envD).allowed_directories
            = loadAllowedDirsFromEnv envA)
        ∧ (loadDeniedDirsFromEnv envD = [] →
          (applyEnvOverrides loaded envA envD).denied_directories
            = loaded.denied_directories)
        ∧ (loadDeniedDirsFromEnv envD ≠ [] →
          (applyEnvOverrides loaded envA envD).denied_directories
            = loadDeniedDirsFromEnv envD))
    ∧ (∀ (prev c : ServerConfig) (envA envD : Option String) (si : SystemInfo),
        (init prev true (some (.ok c)) envA envD true si).1
          = applyEnvOverrides c envA envD) := by
  refine ⟨⟨rfl, rfl⟩, ?_, by decide, ?_, ?_⟩
  · intro s x
    show x ∈ ((rustSplit s ':').map rustTrim).filter (fun t => !t.isEmpty) ↔ _
    rw [List.mem_filter]
    constructor
    · rintro ⟨h1, h2⟩
      refine ⟨h1, ?_⟩
      intro he
      subst he
      simp at h2
      exact absurd h2 (by decide)
    · rintro ⟨h1, h2⟩
      refine ⟨h1, ?_⟩
      cases h : x.isEmpty with
      | false => rfl
      | true => exact absurd ((String.isEmpty_iff x).mp h) h2
  · intro loaded envA envD
    refine ⟨?_, ?_, ?_, ?_⟩ <;> intro h <;>
      by_cases hA : loadAllowedDirsFromEnv envA = [] <;>
      by_cases hD : loadDeniedDirsFromEnv envD = [] <;>
      simp_all [applyEnvOverrides, List.isEmpty_iff]
  · intro prev c envA envD si; rfl

/-- C7 witness. -/
theorem env_override_semantics_witness :
    ((applyEnvOverrides (defaultConfig si0) (some "/x:/y") none).allowed_directories
        = ["/x", "/y"])
    ∧ ((applyEnvOverrides (defaultConfig si0) (some "/x:/y") none).denied_directories
        = (defaultConfig si0).denied_directories)
    ∧ ("/a" ∈ loadAllowedDirsFromEnv (some " /a : : /b ") ↔
        ("/a" ∈ (rustSplit " /a : : /b " ':').map rustTrim ∧ "/a" ≠ "")) :=
  ⟨(env_override_semantics.2.2.2.1 (defaultConfig si0) (some "/x:/y") none).2.1
      (by decide),
   (env_override_semantics.2.2.2.1 (defaultConfig si0) (some "/x:/y") none).2.2.1
      (by decide),
   env_override_semantics.2.1 " /a : : /b " "/a"⟩

theorem recordMatches_iff {r : ClientRecord} {client : ClientInfo} :
    recordMatches r client = true ↔
      (r.client_info.name = client.name ∧ r.client_info.version = client.version) := by
  simp [recordMatches]

theorem updateFirstMatch_map_client_info (l : List ClientRecord)
    (client : ClientInfo) (now : Nat) :
    (updateFirstMatch l client now).map (·.client_info) = l.map (·.client_info) := by
  induction l with
  | nil => rfl
  | cons r rs ih =>
    by_cases h : recordMatches r client = true
    · simp [updateFirstMatch, h]
    · simp [updateFirstMatch, h, ih]

theorem distinctClientPairs_iff_map (l : List ClientRecord) :
    distinctClientPairs l ↔ (l.map (·.client_info)).Pairwise
      (fun a b => ¬ (a.name = b.name ∧ a.version = b.version)) := by
  simp [distinctClientPairs, List.pairwise_map]

theorem distinct_updateFirstMatch (l : List ClientRecord) (client : ClientInfo)
    (now : Nat) (h : distinctClientPairs l) :
    distinctClientPairs (updateFirstMatch l client now) := by
  rw [distinctClientPairs_iff_map] at h ⊢
  rwa [updateFirstMatch_map_client_info]

theorem distinct_append_new (l : List ClientRecord) (client : ClientInfo)
    (now : Nat) (h : distinctClientPairs l)
    (hnone : ∀ r ∈ l, recordMatches r client = false) :
    distinctClientPairs
      (l ++ [{ client_info := client, connected_at := now, last_seen := now }]) := by
  unfold distinctClientPairs
  rw [List.pairwise_append]
  refine ⟨h, List.pairwise_singleton _ _, ?_⟩
  intro a ha b hb
  simp only [List.mem_singleton] at hb
  subst hb
  intro hab
  have hfalse := hnone a ha
  have htrue : recordMatches a client = true := recordMatches_iff.mpr hab
  rw [hfalse] at htrue
  exact Bool.false_ne_true htrue

theorem updateFirstMatch_decomp :
    ∀ (l₁ : List ClientRecord) (r : ClientRecord) (l₂ : List ClientRecord)
      (client : ClientInfo) (now : Nat),
      distinctClientPairs (l₁ ++ r :: l₂) →
      recordMatches r client = true →
      updateFirstMatch (l₁ ++ r :: l₂) client now
        = l₁ ++ { r with last_seen := now } :: l₂ := by
  intro l₁
  induction l₁ with
  | nil =>
    intro r l₂ client now _ hm
    simp [updateFirstMatch, hm]
  | cons a l₁ ih =>
    intro r l₂ client now hd hm
    have hcons := List.pairwise_cons.mp hd
    have hrel : ¬ (a.client_info.name = r.client_info.name ∧
        a.client_info.version = r.client_info.version) :=
      hcons.1 r (by simp)
    have ha : recordMatches a client = false := by
      cases hab : recordMatches a client with
      | false => rfl
      | true =>
        exfalso
        have h1 := recordMatches_iff.mp hab
        have h2 := recordMatches_iff.mp hm
        exact hrel ⟨h1.1.trans h2.1.symm, h1.2.trans h2.2.symm⟩
    simp [updateFirstMatch, ha, ih r l₂ client now hcons.2 hm]

/-- C6: `set_client_info` cannot fail, always sets `current_client`,
always enqueues one save signal, and preserves the at-most-one-record-
per-`(name, version)` invariant: an already-present pair only gets its
`last_seen` updated (its `connected_at` and position are kept, nothing
is appended), while a new pair appends one record with
`connected_at = last_seen = now`. -/
theorem set_client_info_dedup_invariant :
    ∀ (st : ManagerState) (client : ClientInfo) (now : Nat),
      distinctClientPairs st.config.client_history →
      (managerSetClientInfo st client now).2 = .ok ()
      ∧ (managerSetClientInfo st client now).1.save_signals = st.save_signals + 1
      ∧ (managerSetClientInfo st client now).1.config.current_client = some client
      ∧ distinctClientPairs
          (managerSetClientInfo st client now).1.config.client_history
      ∧ ((∀ r ∈ st.config.client_history, recordMatches r client = false) →
          (managerSetClientInfo st client now).1.config.client_history
            = st.config.client_history
              ++ [{ client_info := client, connected_at := now, last_seen := now }])
      ∧ (∀ l₁ r l₂, st.config.client_history = l₁ ++ r :: l₂ →
          recordMatches r client = true →
          (managerSetClientInfo st client now).1.config.client_history
            = l₁ ++ { r with last_seen := now } :: l₂) := by
  intro st client now hinv
  refine ⟨rfl, rfl, rfl, ?_, ?_, ?_⟩
  · show distinctClientPairs (setClientInfo st.config client now).client_history
    unfold setClientInfo
    by_cases hany : st.config.client_history.any (recordMatches · client) = true
    · simp only [hany]
      simp only [if_true]
      exact distinct_updateFirstMatch _ _ _ hinv
    · have hfalse : st.config.client_history.any (recordMatches · client) = false :=
        Bool.eq_false_iff.mpr hany
      simp only [hfalse, Bool.false_eq_true, if_false]
      exact distinct_append_new _ _ _ hinv
        (fun r hr => Bool.eq_false_iff.mpr
          (fun hc => (List.any_eq_false.mp hfalse r hr) hc))
  · intro hnone
    have hfalse : st.config.client_history.any (recordMatches · client) = false := by
      rw [List.any_eq_false]
      intro r hr
      rw [hnone r hr]
      exact Bool.false_ne_true
    show (setClientInfo st.config client now).client_history = _
    unfold setClientInfo
    simp only [hfalse, Bool.false_eq_true, if_false]
  · intro l₁ r l₂ hdec hm
    have hany : st.config.client_history.any (recordMatches · client) = true := by
      rw [List.any_eq_true]
      exact ⟨r, by rw [hdec]; simp, hm⟩
    show (setClientInfo st.config client now).client_history = _
    unfold setClientInfo
    simp only [hany, if_true]
    rw [hdec]
    exact updateFirstMatch_decomp l₁ r l₂ client now (hdec ▸ hinv) hm

/-- C6 witness. -/
theorem set_client_info_dedup_invariant_witness :
    ((managerSetClientInfo
        ⟨{ defaultConfig si0 with
            client_history := [⟨⟨"cli", "1.0"⟩, 3, 4⟩] }, 0⟩
        ⟨"cli", "1.0"⟩ 9).1.config.client_history
      = [⟨⟨"cli", "1.0"⟩, 3, 9⟩])
    ∧ ((managerSetClientInfo
        ⟨{ defaultConfig si0 with
            client_history := [⟨⟨"cli", "1.0"⟩, 3, 4⟩] }, 0⟩
        ⟨"cli", "1.0"⟩ 9).1.config.current_client = some ⟨"cli", "1.0"⟩) := by
  have h := set_client_info_dedup_invariant
    ⟨{ defaultConfig si0 with client_history := [⟨⟨"cli", "1.0"⟩, 3, 4⟩] }, 0⟩
    ⟨"cli", "1.0"⟩ 9 (by decide)
  exact ⟨h.2.2.2.2.2 [] ⟨⟨"cli", "1.0"⟩, 3, 4⟩ [] rfl (by decide), h.2.2.1⟩

theorem saverExec_burst_fire :
    ∀ (tr : List (ServerConfig × SaverEvent)) (last T : Nat) (cdef : ServerConfig),
      BurstOK last tr = true →
      debounceMs ≤ T - lastRecvTime last tr →
      saverExec ⟨true, last⟩ (tr ++ [(lastRecvCfg cdef tr, .tick T)])
        = (⟨false, lastRecvTime last tr⟩, [lastRecvCfg cdef tr]) := by
  intro tr
  induction tr with
  | nil =>
    intro last T cdef _ hT
    simp [saverExec, saverStep, lastRecvTime, lastRecvCfg] at hT ⊢
    simp [hT]
  | cons e tr ih =>
    obtain ⟨cfg, ev⟩ := e
    cases ev with
    | recv t =>
      intro last T cdef hB hT
      have h2 := ih t T cfg hB hT
      simp [saverExec, saverStep, lastRecvTime, lastRecvCfg, h2]
    | tick u =>
      intro last T cdef hB hT
      rw [show BurstOK last ((cfg, SaverEvent.tick u) :: tr)
            = (decide (u - last < debounceMs) && BurstOK last tr) from rfl,
        Bool.and_eq_true, decide_eq_true_iff] at hB
      obtain ⟨h1, h2⟩ := hB
      have hcond : ¬ (debounceMs ≤ u - last) := by omega
      have h3 := ih last T cdef h2 hT
      simp [saverExec, saverStep, lastRecvTime, lastRecvCfg, hcond, h3]

/-- C8 counterexample: the claim's final clause — "on channel close a
pending save is flushed once regardless of the timer" — is false of
the code.  The `else` (channel-closed) arm of the saver's `select!` at
`src/src/persistence.rs:108-118` is unreachable: the 100 ms sleep arm
always completes and its pattern always matches, so the
all-branches-disabled condition for `else` never holds.  After the
channel closes, only ticks occur, and the flush stays timer-gated: at
the concrete post-close state "save pending since time 100", the tick
at time 200 (inside the debounce window) writes nothing, and the
pending save is written only by the tick at time 400, after the
window elapsed. -/
theorem close_pending_save_is_timer_gated :
    saverStep ⟨true, 100⟩ (defaultConfig si0) (.tick 200) = (⟨true, 100⟩, none)
    ∧ (saverExec ⟨true, 100⟩ [(defaultConfig si0, .tick 200)]).2 = []
    ∧ (saverExec ⟨true, 100⟩
        [(defaultConfig si0, .tick 200), (defaultConfig si0, .tick 400)]).2
      = [defaultConfig si0] := by
  refine ⟨by decide, by decide, by decide⟩

/-- C8 (amended): within one debounce burst — any number `N ≥ 1` of
save signals, each resetting the request timestamp, with every poll
tick falling inside the 300 ms window of the latest signal — the saver
performs exactly one disk write, at the first tick at least 300 ms
after the last signal, and that write serializes the shared config as
of the last signal (the state after the Nth `set_value`), never an
intermediate state.  A signal arriving while a save is pending resets
the timer; a tick with nothing pending writes nothing.  There is no
flush-on-close: the `select!` `else` arm is dead code (see
`close_pending_save_is_timer_gated`), so after the channel closes the
loop keeps polling and a pending save is written exactly through the
tick arm — nothing inside the debounce window, one write at the first
tick past it. -/
theorem background_saver_debounce :
    (∀ (st₀ : SaverState) (c₁ : ServerConfig) (t₁ : Nat)
        (tr : List (ServerConfig × SaverEvent)) (T : Nat),
        st₀.hasPending = false →
        BurstOK t₁ tr = true →
        debounceMs ≤ T - lastRecvTime t₁ tr →
        (saverExec st₀
            ((c₁, .recv t₁) :: (tr ++ [(lastRecvCfg c₁ tr, .tick T)]))).2
          = [lastRecvCfg c₁ tr])
    ∧ (∀ (st : SaverState) (cfg : ServerConfig) (now : Nat),
        saverStep st cfg (.recv now) = (⟨true, now⟩, none))
    ∧ (∀ (st : SaverState) (cfg : ServerConfig) (u : Nat),
        st.hasPending = false → saverStep st cfg (.tick u) = (st, none))
    ∧ (∀ (st : SaverState) (cfg : ServerConfig) (u : Nat),
        st.hasPending = true → u - st.lastReq < debounceMs →
        saverStep st cfg (.tick u) = (st, none))
    ∧ (∀ (st : SaverState) (cfg : ServerConfig) (u : Nat),
        st.hasPending = true → debounceMs ≤ u - st.lastReq →
        saverStep st cfg (.tick u)
          = ({ st with hasPending := false }, some cfg)) := by
  refine ⟨?_, ?_, ?_, ?_, ?_⟩
  · intro st₀ c₁ t₁ tr T _ hB hT
    have h := saverExec_burst_fire tr t₁ T c₁ hB hT
    simp [saverExec, saverStep, h]
  · intro st cfg now; rfl
  · intro st cfg u h; simp [saverStep, h]
  · intro st cfg u h hu
    have : ¬ (debounceMs ≤ u - st.lastReq) := by omega
    simp [saverStep, h, this]
  · intro st cfg u h hu
    simp [saverStep, h, hu]

/-- C8 witness. -/
theorem background_saver_debounce_witness :
    (saverExec ⟨false, 0⟩
        ((defaultConfig si0, .recv 10)
          :: ([({ defaultConfig si0 with file_read_line_limit := 2 }, .recv 120),
               ({ defaultConfig si0 with file_read_line_limit := 2 }, .tick 200)]
              ++ [({ defaultConfig si0 with file_read_line_limit := 2 },
                   .tick 500)]))).2
      = [{ defaultConfig si0 with file_read_line_limit := 2 }] :=
  background_saver_debounce.1 ⟨false, 0⟩ (defaultConfig si0) 10
    [({ defaultConfig si0 with file_read_line_limit := 2 }, .recv 120),
     ({ defaultConfig si0 with file_read_line_limit := 2 }, .tick 200)]
    500 rfl (by decide) (by decide)

end KodegenConfig
